import Mathlib

/-!
Shallow embedding of the HTML tokenizer core of this repository
(CharacterReader, the Token model, the Tokeniser driver and the
TokeniserState machine), translated statement by statement from the
TypeScript source.  JS strings are modelled as `List Char`; JS `null` /
`undefined` as `Option`; thrown `Error`s as `Except Str`.  The mutable
classes are modelled by explicit state passing.
-/

set_option maxRecDepth 20000

namespace Abc

/-- JS strings are lists of characters (`input.split('')`). -/
abbrev Str := List Char

/-- `Array.prototype.slice(begin, end)`: the elements at indices
`begin ≤ i < end` (empty when `end ≤ begin`). -/
def jsSlice (l : Str) (b e : Nat) : Str :=
  (l.take e).drop b

/-- `Array.prototype.join()` on an array of one-character strings: the
elements separated by `,` (the default separator). -/
def joinComma : Str → Str
  | [] => []
  | [c] => [c]
  | c :: rest => c :: ',' :: joinComma rest

/-- `Array.prototype.findIndex`: index of the first element satisfying the
predicate; `none` models JS `-1`. -/
def jsFindIdx (p : Char → Bool) : Str → Option Nat
  | [] => none
  | c :: rest => if p c then some 0 else (jsFindIdx p rest).map (· + 1)

/-- Worker for `String.prototype.indexOf`: scans the suffix, returning the
absolute index of the first occurrence of `needle`, or `-1`. -/
def jsIndexOfGo (needle : Str) : Str → Nat → Int
  | [], i => if needle.isEmpty then (i : Int) else -1
  | c :: rest, i =>
    if needle.isPrefixOf (c :: rest) then (i : Int) else jsIndexOfGo needle rest (i + 1)

/-- `hay.indexOf(needle, start)`. -/
def jsIndexOfFrom (hay needle : Str) (start : Nat) : Int :=
  jsIndexOfGo needle (hay.drop start) start

/-- JS whitespace for `String.prototype.trim` (ASCII part; the Unicode
space classes do not occur in the inputs of interest). -/
def jsIsSpace (c : Char) : Bool :=
  c = ' ' || c = '\t' || c = '\n' || c = '\r' || c = '\x0c' || c = '\x0b'

/-- `String.prototype.trim`. -/
def jsTrim (s : Str) : Str :=
  ((s.dropWhile jsIsSpace).reverse.dropWhile jsIsSpace).reverse

/-- `String.prototype.replace(pat, rep)` with one-character string `pat`:
replaces only the first occurrence. -/
def jsReplaceFirst (pat rep : Char) : Str → Str
  | [] => []
  | c :: rest => if c = pat then rep :: rest else c :: jsReplaceFirst pat rep rest

/-- `Helper.isLetter`: the regex `^[a-zA-Z]+$` on a one-character string. -/
def isLetter (c : Char) : Bool :=
  ('a' ≤ c && c ≤ 'z') || ('A' ≤ c && c ≤ 'Z')

/-- `String(x)` of a JS value that is a char or `undefined` (used in error
message interpolation; `undefined` prints as "undefined"). -/
def optToString : Option Char → Str
  | some c => [c]
  | none => "undefined".toList

/-! ### The flyweight string cache of CharacterReader -/

/-- The `stringCache` array: slot index ↦ cached string.  Unset slots
(JS `undefined`) are absent. -/
abbrev Cache := List (Nat × Str)

def cacheGet (cache : Cache) (i : Nat) : Option Str :=
  cache.lookup i

def cacheSet (cache : Cache) (i : Nat) (s : Str) : Cache :=
  (i, s) :: cache.filter (fun p => p.1 ≠ i)

def maxStringCacheLen : Nat := 12
def stringCacheSize : Nat := 512

/-- `CharacterReader.rangeEquals(charBuf, start, count, cached)`: does the
range `charBuf[start .. start+count)` equal `cached`? -/
def rangeEquals (charBuf : Str) (start count : Nat) (cached : Str) : Bool :=
  count == cached.length &&
    (List.range count).all fun i =>
      charBuf.getD (start + i) '\x00' == cached.getD i '\x00'

/-- `CharacterReader.cacheString(charBuf, stringCache, start, count)`.
Translated line by line: the no-cache branch returns
`charBuf.slice(start, count).join('')` and the cache-miss branch returns
`charBuf.slice(start, count).join()` (comma separator), exactly as in the
source, where `count` is passed as the second `slice` argument (an end
index in JS).  The rolling hash is over `c.charCode`; its value only
selects the slot. -/
def cacheString (charBuf : Str) (cache : Cache) (start count : Nat) : Str × Cache :=
  if count > maxStringCacheLen then (jsSlice charBuf start count, cache)
  else if count < 1 then ([], cache)
  else
    let hash := (List.range count).foldl
      (fun v i => 31 * v + (charBuf.getD (start + i) '\x00').toNat) 0
    let index := hash % stringCacheSize
    match cacheGet cache index with
    | some cached =>
      if rangeEquals charBuf start count cached then (cached, cache)
      else
        let s := joinComma (jsSlice charBuf start count)
        (s, cacheSet cache index s)
    | none =>
      let s := joinComma (jsSlice charBuf start count)
      (s, cacheSet cache index s)

/-! ### CharacterReader -/

/-- The state of a `CharacterReader`.  `charBuf` doubles as the `reader`
string (the constructor sets both to the input); `bufLength` is
`charBuf.length`; `readerPos` is always 0 (`bufferUp` is a no-op), so
`pos()` is `bufPos`.  `bufMark = -1` means no mark. -/
structure CharacterReader where
  charBuf : Str
  bufPos : Nat
  bufMark : Int
  stringCache : Cache
  deriving Repr, DecidableEq

def initReader (input : Str) : CharacterReader :=
  { charBuf := input, bufPos := 0, bufMark := -1, stringCache := [] }

namespace CharacterReader

def pos (r : CharacterReader) : Nat := r.bufPos

def isEmpty (r : CharacterReader) : Bool :=
  r.bufPos ≥ r.charBuf.length

/-- `current()`: char at the cursor, or the EOF sentinel (`undefined`,
modelled as `none`). -/
def current (r : CharacterReader) : Option Char :=
  if r.isEmpty then none else r.charBuf.get? r.bufPos

/-- `consume()`: the value is the char at the cursor (EOF sentinel when
empty) and `bufPos++` is executed unconditionally. -/
def consume (r : CharacterReader) : Option Char × CharacterReader :=
  let val := if r.isEmpty then none else r.charBuf.get? r.bufPos
  (val, { r with bufPos := r.bufPos + 1 })

def unconsume (r : CharacterReader) : Except Str CharacterReader :=
  if r.bufPos < 1 then .error "WTF: No buffer left to unconsume.".toList
  else .ok { r with bufPos := r.bufPos - 1 }

def advance (r : CharacterReader) : CharacterReader :=
  { r with bufPos := r.bufPos + 1 }

/-- `mark()`: the entire body is commented out in the source, so this is a
no-op — `bufMark` is never set. -/
def mark (r : CharacterReader) : CharacterReader := r

def unmark (r : CharacterReader) : CharacterReader :=
  { r with bufMark := -1 }

def rewindToMark (r : CharacterReader) : Except Str CharacterReader :=
  if r.bufMark = -1 then .error "Mark invalid".toList
  else .ok { r with bufPos := r.bufMark.toNat, bufMark := -1 }

/-- `nextIndexOf(c)`: offset from the cursor to the next occurrence of the
target in the `reader` string, or `-1`. -/
def nextIndexOf (r : CharacterReader) (seq : Str) : Int :=
  let index := jsIndexOfFrom r.charBuf seq r.bufPos
  if index = -1 then -1 else index - (r.bufPos : Int)

/-- `returnConsume(index)`: `bufPos += Math.max(index, 0)` and the result
is `''` when `index === -1`, else `cacheString(charBuf, cache, pos, index)`.
`none` models `-1`. -/
def returnConsume (r : CharacterReader) (index : Option Nat) : Str × CharacterReader :=
  let p := r.bufPos
  let r' := { r with bufPos := r.bufPos + index.getD 0 }
  match index with
  | none => ([], r')
  | some i =>
    let (s, cache) := cacheString r.charBuf r.stringCache p i
    (s, { r' with stringCache := cache })

/-- `consumeToAny(chars)`. -/
def consumeToAny (r : CharacterReader) (chars : List Char) : Str × CharacterReader :=
  r.returnConsume (jsFindIdx (fun ch => chars.contains ch) (r.charBuf.drop r.bufPos))

def consumeToAnySorted (r : CharacterReader) (chars : List Char) : Str × CharacterReader :=
  r.consumeToAny chars

/-- `consumeData()`: delimiters `&`, `<`, NUL. -/
def consumeData (r : CharacterReader) : Str × CharacterReader :=
  r.consumeToAny ['&', '<', '\x00']

/-- `consumeAttributeQuoted(single)`. -/
def consumeAttributeQuoted (r : CharacterReader) (single : Bool) : Str × CharacterReader :=
  r.returnConsume (jsFindIdx
    (fun ch =>
      if ch = '&' then true
      else if ch = '\x00' then true
      else if ch = '\'' && single then true
      else if ch = '"' && !single then true
      else false)
    (r.charBuf.drop r.bufPos))

/-- `consumeRawData()`: delimiters `<`, NUL. -/
def consumeRawData (r : CharacterReader) : Str × CharacterReader :=
  r.returnConsume (jsFindIdx (fun ch => ch = '<' || ch = '\x00') (r.charBuf.drop r.bufPos))

/-- `consumeTagName()`: stops at `\t \n \r \f space / > <`. -/
def consumeTagName (r : CharacterReader) : Str × CharacterReader :=
  r.returnConsume (jsFindIdx
    (fun ch => (['\t', '\n', '\r', '\x0c', ' ', '/', '>', '<'] : List Char).contains ch)
    (r.charBuf.drop r.bufPos))

def consumeToEnd (r : CharacterReader) : Str × CharacterReader :=
  let (data, cache) := cacheString r.charBuf r.stringCache r.bufPos
    (r.charBuf.length - r.bufPos)
  (data, { r with bufPos := r.charBuf.length, stringCache := cache })

/-- `consumeTo(c)` for a string target (the only form the embedded states
use; the `Char.isChar` test is false for strings). -/
def consumeTo (r : CharacterReader) (seq : Str) : Str × CharacterReader :=
  let offset := r.nextIndexOf seq
  if offset ≠ -1 then
    let (consumed, cache) := cacheString r.charBuf r.stringCache r.bufPos offset.toNat
    (consumed, { r with bufPos := r.bufPos + offset.toNat, stringCache := cache })
  else if seq.length = 1 ∨
      ((r.charBuf.length : Int) - (r.bufPos : Int)) < (seq.length : Int) then
    r.consumeToEnd
  else
    let endPos := r.charBuf.length - seq.length + 1
    let (consumed, cache) := cacheString r.charBuf r.stringCache r.bufPos (endPos - r.bufPos)
    (consumed, { r with bufPos := endPos, stringCache := cache })

/-- `matches(c)` for a char target. -/
def matchesChar (r : CharacterReader) (c : Char) : Bool :=
  !r.isEmpty && r.charBuf.getD r.bufPos '\x00' == c

/-- `matchesIgnoreCase(seq)`: despite its name it compares with
`Char.equals`, which is case sensitive (`charAt(0) === charAt(0)`). -/
def matchesIgnoreCase (r : CharacterReader) (seq : Str) : Bool :=
  if (seq.length : Int) > (r.charBuf.length : Int) - (r.bufPos : Int) then false
  else (List.range seq.length).all fun i =>
    r.charBuf.getD (r.bufPos + i) '\x00' == seq.getD i '\x00'

/-- `matchConsume(seq)`. -/
def matchConsume (r : CharacterReader) (seq : Str) : Bool × CharacterReader :=
  if r.matchesIgnoreCase seq then (true, { r with bufPos := r.bufPos + seq.length })
  else (false, r)

def matchesLetter (r : CharacterReader) : Bool :=
  if r.isEmpty then false else isLetter (r.charBuf.getD r.bufPos '\x00')

end CharacterReader

/-! ### Attributes (nodes/Attributes.ts, nodes/Attribute.ts) -/

/-- One attribute.  The `Attribute` constructor runs `key.trim()` and
`val || ''`. -/
structure Attribute where
  key : Str
  val : Str
  deriving Repr, DecidableEq

/-- The ordered attribute list of an element or tag token. -/
structure Attributes where
  list : List Attribute
  deriving Repr, DecidableEq

def Attributes.empty : Attributes := ⟨[]⟩

def Attributes.length (a : Attributes) : Nat := a.list.length

/-- `Attributes.add(name, value)`: pushes
`createAttr(name, `${value}`)`.  The template literal stringifies a JS
`null` value to the string "null"; the `Attribute` constructor then applies
`key.trim()` and `val || ''` (the latter is the identity on strings, since
`"" || ''` is `''`). -/
def Attributes.add (a : Attributes) (name : Str) (value : Option Str) : Attributes :=
  let vStr : Str := match value with
    | none => "null".toList
    | some s => s
  ⟨a.list ++ [{ key := jsTrim name, val := vStr }]⟩

/-! ### The token model (parse/Token.ts) -/

inductive TokenType where
  | Doctype | StartTag | EndTag | Comment | Character | EOF
  deriving Repr, DecidableEq

/-- `Tag.MaxAttributes`. -/
def maxAttributes : Nat := 512

def replacementChar : Char := '�'

/-- The mutable state of a `Tag` token (`StartTag` / `EndTag` are
distinguished by `isStart`). -/
structure Tag where
  isStart : Bool
  tagName : Option Str
  normalName : Option Str
  pendingAttributeName : Option Str
  pendingAttributeValue : Str
  pendingAttributeValueS : Option Str
  hasEmptyAttributeValue : Bool
  hasPendingAttributeValue : Bool
  selfClosing : Bool
  attributes : Option Attributes
  deriving Repr, DecidableEq

/-- `Tag.reset()` (and the freshly constructed pending instance). -/
def freshTag (isStart : Bool) : Tag :=
  { isStart := isStart, tagName := none, normalName := none,
    pendingAttributeName := none, pendingAttributeValue := [],
    pendingAttributeValueS := none, hasEmptyAttributeValue := false,
    hasPendingAttributeValue := false, selfClosing := false, attributes := none }

namespace Tag

/-- `Normalizer.lowerCase` (helper class not present under src; standard
lower-casing). -/
def lowerCase (s : Str) : Str := s.map Char.toLower

/-- Number of attributes accumulated so far (0 when the list is unset). -/
def attrLength (t : Tag) : Nat :=
  match t.attributes with
  | none => 0
  | some a => a.length

/-- `Tag.newAttribute()`: commits the pending attribute, subject to the
`MaxAttributes` cap, then clears the pending fields. -/
def newAttribute (t : Tag) : Tag :=
  let t := if t.attributes.isNone then { t with attributes := some Attributes.empty } else t
  let attrs := t.attributes.getD Attributes.empty
  let t :=
    match t.pendingAttributeName with
    | some pname =>
      if attrs.length < maxAttributes then
        let pname := jsTrim pname
        if pname.length > 0 then
          let value : Option Str :=
            if t.hasPendingAttributeValue then
              (if t.pendingAttributeValue.length > 0 then some t.pendingAttributeValue
               else t.pendingAttributeValueS)
            else if t.hasEmptyAttributeValue then some []
            else none
          { t with attributes := some (attrs.add pname value) }
        else t
      else t
    | none => t
  { t with pendingAttributeName := none, hasEmptyAttributeValue := false,
           hasPendingAttributeValue := false, pendingAttributeValue := [],
           pendingAttributeValueS := none }

/-- `hasAttributes()`: `Helper.notNull(this.attributes)`. -/
def hasAttributes (t : Tag) : Bool := t.attributes.isSome

/-- `finaliseTag()`. -/
def finaliseTag (t : Tag) : Tag :=
  if t.pendingAttributeName.isSome then t.newAttribute else t

/-- `get_tagName()`: asserts the name is neither null nor empty
(`Assert.isFalse(Helper.isEmpty(this.tagName))`, default message). -/
def get_tagName (t : Tag) : Except Str Str :=
  match t.tagName with
  | none => .error "must be false".toList
  | some s => if s.isEmpty then .error "must be false".toList else .ok s

/-- `appendTagName(append)`: `append.replace(nullChar, replacementChar)`
replaces only the first NUL (JS semantics), then concatenates. -/
def appendTagName (t : Tag) (append : Str) : Tag :=
  let append := jsReplaceFirst '\x00' replacementChar append
  let tagName := match t.tagName with
    | none => append
    | some old => old ++ append
  { t with tagName := some tagName, normalName := some (lowerCase tagName) }

/-- `appendAttributeName(append)`. -/
def appendAttributeName (t : Tag) (append : Str) : Tag :=
  let append := jsReplaceFirst '\x00' replacementChar append
  let pname := match t.pendingAttributeName with
    | none => append
    | some old => old ++ append
  { t with pendingAttributeName := some pname }

/-- `ensureAttributeValue()`. -/
def ensureAttributeValue (t : Tag) : Tag :=
  let t := { t with hasPendingAttributeValue := true }
  match t.pendingAttributeValueS with
  | some s => { t with pendingAttributeValue := t.pendingAttributeValue ++ s,
                       pendingAttributeValueS := none }
  | none => t

/-- `appendAttributeValue(append)` for the string overload (the only one
the embedded states use). -/
def appendAttributeValue (t : Tag) (append : Str) : Tag :=
  let t := t.ensureAttributeValue
  if t.pendingAttributeValue.length = 0 then
    { t with pendingAttributeValueS := some append }
  else
    { t with pendingAttributeValue := t.pendingAttributeValue ++ append }

/-- `setEmptyAttributeValue()`. -/
def setEmptyAttributeValue (t : Tag) : Tag :=
  { t with hasEmptyAttributeValue := true }

def set_tagName (t : Tag) (name : Str) : Tag :=
  { t with tagName := some name, normalName := some (lowerCase name) }

end Tag

/-- The mutable state of a `Comment` token. -/
structure CommentTok where
  data : Str
  dataS : Option Str
  bogus : Bool
  deriving Repr, DecidableEq

namespace CommentTok

def reset : CommentTok := { data := [], dataS := none, bogus := false }

/-- `Comment.append(append)`: `ensureData()` then fill `dataS` on the
first hit, the builder afterwards. -/
def append (c : CommentTok) (s : Str) : CommentTok :=
  let c := match c.dataS with
    | some old => { c with data := c.data ++ old, dataS := none }
    | none => c
  if c.data.length = 0 then { c with dataS := some s }
  else { c with data := c.data ++ s }

end CommentTok

/-- A token by value.  `StartTag`/`EndTag` share the `tag` constructor. -/
inductive Token where
  | tag (t : Tag)
  | comment (c : CommentTok)
  | character (data : Str)
  | eof
  deriving Repr, DecidableEq

/-- The `type` getter.  `Comment.get type()` is a stub that throws
"Method not implemented." in the source, so asking a comment token for its
type is an error. -/
def Token.typeOf : Token → Except Str TokenType
  | .tag t => .ok (if t.isStart then TokenType.StartTag else TokenType.EndTag)
  | .comment _ => .error "Method not implemented.".toList
  | .character _ => .ok TokenType.Character
  | .eof => .ok TokenType.EOF

/-! ### ParseErrorList -/

structure ParseError where
  pos : Nat
  errorMsg : Str
  deriving Repr, DecidableEq

/-- Modelled from the spec: `ParseError.ts` is imported by the Tokeniser
but absent from src.  Per the spec (§3, §6) an ErrorCollector is a bounded
ordered list of (position, message) records that stops recording once a
configurable cap is reached. -/
structure ParseErrorList where
  maxSize : Nat
  errors : List ParseError
  deriving Repr, DecidableEq

def ParseErrorList.canAddError (l : ParseErrorList) : Bool :=
  l.errors.length < l.maxSize

def ParseErrorList.push (l : ParseErrorList) (e : ParseError) : ParseErrorList :=
  { l with errors := l.errors ++ [e] }

/-! ### The Tokeniser driver and its state machine

Only the states reachable from the inputs under study are embedded; the
DOCTYPE and CDATA branches of `MarkupDeclarationOpen` are dead in this
codebase (they call `r.matchConsumeIgnoreCase`, a method `CharacterReader`
does not define, which is a JS `TypeError`), and the RCDATA/RAWTEXT/script
families are only entered by the (absent) tree builder. -/

inductive TState where
  | Data | CharacterReferenceInData | TagOpen | EndTagOpen | TagName
  | SelfClosingStartTag
  | BeforeAttributeName | AttributeName | AfterAttributeName
  | BeforeAttributeValue | AttributeValue_doubleQuoted
  | AttributeValue_singleQuoted | AttributeValue_unquoted
  | AfterAttributeValue_quoted
  | MarkupDeclarationOpen | CommentStart | CommentStartDash | Comment
  | CommentEndDash | CommentEnd | CommentEndBang | BogusComment
  deriving Repr, DecidableEq

/-- The Tokeniser driver state.  The reusable pending instances
(`startPending`, `endPending`, …) are modelled by value: `createTagPending`
installs a freshly reset tag, which is what `reset()` on the reused
instance produces. -/
structure Tokeniser where
  state : TState
  emitPending : Option Token
  isEmitPending : Bool
  charsString : Option Str
  charsBuilder : Str
  dataBuffer : Str
  tagPending : Option Tag
  commentPending : CommentTok
  lastStartTag : Option Str
  errors : ParseErrorList
  deriving Repr, DecidableEq

def initTokeniser (maxErrors : Nat) : Tokeniser :=
  { state := .Data, emitPending := none, isEmitPending := false,
    charsString := none, charsBuilder := [], dataBuffer := [],
    tagPending := none, commentPending := CommentTok.reset,
    lastStartTag := none, errors := { maxSize := maxErrors, errors := [] } }

namespace Tokeniser

def transition (t : Tokeniser) (s : TState) : Tokeniser :=
  { t with state := s }

/-- `emitString(str)`: accumulate pending character data. -/
def emitString (t : Tokeniser) (s : Str) : Tokeniser :=
  match t.charsString with
  | none => { t with charsString := some s }
  | some cs =>
    let cb := if t.charsBuilder.length = 0 then t.charsBuilder ++ cs else t.charsBuilder
    { t with charsBuilder := cb ++ s }

/-- `error(msg)` with a plain string message. -/
def error (t : Tokeniser) (r : CharacterReader) (msg : Str) : Tokeniser :=
  if t.errors.canAddError then
    { t with errors := t.errors.push { pos := r.pos, errorMsg := msg } }
  else t

/-- The message `error(state)` builds.  `TokeniserState` instances have no
`toString`, so the template interpolation of the state prints
"[object Object]". -/
def stateErrorMsg (r : CharacterReader) : Str :=
  "Unexpected character '".toList ++ optToString r.current ++
    "' in input state [[object Object]]".toList

/-- `error(state)`. -/
def errorState (t : Tokeniser) (r : CharacterReader) : Tokeniser :=
  t.error r (stateErrorMsg r)

/-- `eofError(state)`. -/
def eofError (t : Tokeniser) (r : CharacterReader) : Tokeniser :=
  t.error r
    "Unexpectedly reached end of file (EOF) in input state [[object Object]]".toList

/-- Access `this.tagPending` (a JS `TypeError` before any tag was
created; unreachable in the traces below). -/
def getTagPending (t : Tokeniser) : Except Str Tag :=
  match t.tagPending with
  | none => .error "tagPending undefined".toList
  | some tg => .ok tg

def setTagPending (t : Tokeniser) (tg : Tag) : Tokeniser :=
  { t with tagPending := some tg }

/-- `createTagPending(start)`. -/
def createTagPending (t : Tokeniser) (start : Bool) : Tokeniser :=
  t.setTagPending (freshTag start)

def createCommentPending (t : Tokeniser) : Tokeniser :=
  { t with commentPending := CommentTok.reset }

def createBogusCommentPending (t : Tokeniser) : Tokeniser :=
  { t with commentPending := { CommentTok.reset with bogus := true } }

def appendComment (t : Tokeniser) (s : Str) : Tokeniser :=
  { t with commentPending := t.commentPending.append s }

/-- `emitToken(token)`: asserts no emit is pending, installs the token,
remembers the last start-tag name (via `get_tagName`, which throws on an
empty name), and records the end-tag-attributes parse error. -/
def emitToken (t : Tokeniser) (r : CharacterReader) (tok : Token) : Except Str Tokeniser :=
  if t.isEmitPending then .error "must be false".toList
  else
    let t := { t with emitPending := some tok, isEmitPending := true }
    match tok.typeOf with
    | .error e => .error e
    | .ok ty =>
      if ty = TokenType.StartTag then
        match tok with
        | .tag tg =>
          (match tg.get_tagName with
           | .error e => .error e
           | .ok name => .ok { t with lastStartTag := some name })
        | _ => .ok t
      else if ty = TokenType.EndTag then
        match tok with
        | .tag tg =>
          if tg.hasAttributes then
            .ok (t.error r "Attributes incorrectly present on end tag".toList)
          else .ok t
        | _ => .ok t
      else .ok t

/-- `emitTagPending()`. -/
def emitTagPending (t : Tokeniser) (r : CharacterReader) : Except Str Tokeniser := do
  let tg ← t.getTagPending
  let tg := tg.finaliseTag
  let t := t.setTagPending tg
  t.emitToken r (Token.tag tg)

/-- `emitCommentPending()` (always throws: `Comment.get type()` is an
unimplemented stub). -/
def emitCommentPending (t : Tokeniser) (r : CharacterReader) : Except Str Tokeniser :=
  t.emitToken r (Token.comment t.commentPending)

end Tokeniser

/-! ### The state read functions -/

abbrev StepResult := Except Str (Tokeniser × CharacterReader)

def attributeNameCharsSorted : List Char :=
  ['\t', '\n', '\x0c', '\r', ' ', '"', '\'', '/', '<', '=', '>']

def attributeValueUnquoted : List Char :=
  ['\x00', '\t', '\n', '\x0c', '\r', ' ', '"', '&', '\'', '<', '=', '>', '`']

def readData (t : Tokeniser) (r : CharacterReader) : StepResult :=
  match r.current with
  | some '&' => .ok (t.transition .CharacterReferenceInData, r.advance)
  | some '<' => .ok (t.transition .TagOpen, r.advance)
  | some '\x00' =>
    let t := t.errorState r
    let (c, r) := r.consume
    (match c with
     | some ch => .ok (t.emitString [ch], r)
     | none => .error "TypeError: toString of undefined".toList)
  | none => do
    let t ← t.emitToken r Token.eof
    .ok (t, r)
  | some _ =>
    let (data, r) := r.consumeData
    .ok (t.emitString data, r)

/-- `CharacterReferenceInData` calls `readCharRef`, which calls
`Tokeniser.consumeCharacterReference` — a stub that throws
"Method not implemented." in the source. -/
def readCharacterReferenceInData (_ : Tokeniser) (_ : CharacterReader) : StepResult :=
  .error "Method not implemented.".toList

def readTagOpen (t : Tokeniser) (r : CharacterReader) : StepResult :=
  match r.current with
  | some '!' => .ok (t.transition .MarkupDeclarationOpen, r.advance)
  | some '/' => .ok (t.transition .EndTagOpen, r.advance)
  | some '?' =>
    let t := t.createBogusCommentPending
    .ok (t.transition .BogusComment, r.advance)
  | _ =>
    if r.matchesLetter then
      .ok ((t.createTagPending true).transition .TagName, r)
    else
      let t := t.errorState r
      .ok ((t.emitString "<".toList).transition .Data, r)

def readEndTagOpen (t : Tokeniser) (r : CharacterReader) : StepResult :=
  if r.isEmpty then
    let t := t.eofError r
    .ok ((t.emitString "</".toList).transition .Data, r)
  else if r.matchesLetter then
    .ok ((t.createTagPending false).transition .TagName, r)
  else if r.matchesChar '>' then
    let t := t.errorState r
    .ok (t.transition .Data, r.advance)
  else
    let t := t.errorState r
    let t := t.createBogusCommentPending
    .ok (t.transition .BogusComment, r.advance)

def readTagName (t : Tokeniser) (r : CharacterReader) : StepResult := do
  let (tagName, r) := r.consumeTagName
  let tg ← t.getTagPending
  let t := t.setTagPending (tg.appendTagName tagName)
  let (c, r) := r.consume
  match c with
  | some '\t' | some '\n' | some '\r' | some '\x0c' | some ' ' =>
    .ok (t.transition .BeforeAttributeName, r)
  | some '/' => .ok (t.transition .SelfClosingStartTag, r)
  | some '<' => do
    -- out-of-spec: unconsume, error, then fall through to the > case
    let r ← r.unconsume
    let t := t.errorState r
    let t ← t.emitTagPending r
    .ok (t.transition .Data, r)
  | some '>' => do
    let t ← t.emitTagPending r
    .ok (t.transition .Data, r)
  | some '\x00' => do
    let tg ← t.getTagPending
    .ok (t.setTagPending (tg.appendTagName [replacementChar]), r)
  | none =>
    let t := t.eofError r
    .ok (t.transition .Data, r)
  | some c => do
    let tg ← t.getTagPending
    .ok (t.setTagPending (tg.appendTagName [c]), r)

def readSelfClosingStartTag (t : Tokeniser) (r : CharacterReader) : StepResult := do
  let (c, r) := r.consume
  match c with
  | some '>' => do
    let tg ← t.getTagPending
    let t := t.setTagPending { tg with selfClosing := true }
    let t ← t.emitTagPending r
    .ok (t.transition .Data, r)
  | none =>
    let t := t.eofError r
    .ok (t.transition .Data, r)
  | some _ => do
    let r ← r.unconsume
    let t := t.errorState r
    .ok (t.transition .BeforeAttributeName, r)

def readBeforeAttributeName (t : Tokeniser) (r : CharacterReader) : StepResult := do
  let (c, r) := r.consume
  match c with
  | some '\t' | some '\n' | some '\r' | some '\x0c' | some ' ' =>
    .ok (t, r) -- ignore whitespace
  | some '/' => .ok (t.transition .SelfClosingStartTag, r)
  | some '<' => do
    -- out-of-spec: unconsume, error, then fall through as if >
    let r ← r.unconsume
    let t := t.errorState r
    let t ← t.emitTagPending r
    .ok (t.transition .Data, r)
  | some '>' => do
    let t ← t.emitTagPending r
    .ok (t.transition .Data, r)
  | some '\x00' => do
    let r ← r.unconsume
    let t := t.errorState r
    let tg ← t.getTagPending
    let t := t.setTagPending tg.newAttribute
    .ok (t.transition .AttributeName, r)
  | none =>
    let t := t.eofError r
    .ok (t.transition .Data, r)
  | some c =>
    if c = '"' ∨ c = '\'' ∨ c = '=' then do
      let t := t.errorState r
      let tg ← t.getTagPending
      let t := t.setTagPending (tg.newAttribute.appendAttributeName [c])
      .ok (t.transition .AttributeName, r)
    else do
      let tg ← t.getTagPending
      let t := t.setTagPending tg.newAttribute
      let r ← r.unconsume
      .ok (t.transition .AttributeName, r)

def readAttributeName (t : Tokeniser) (r : CharacterReader) : StepResult := do
  let (name, r) := r.consumeToAnySorted attributeNameCharsSorted
  let tg ← t.getTagPending
  let t := t.setTagPending (tg.appendAttributeName name)
  let (c, r) := r.consume
  match c with
  | some '\t' | some '\n' | some '\r' | some '\x0c' | some ' ' =>
    .ok (t.transition .AfterAttributeName, r)
  | some '/' => .ok (t.transition .SelfClosingStartTag, r)
  | some '=' => .ok (t.transition .BeforeAttributeValue, r)
  | some '>' => do
    let t ← t.emitTagPending r
    .ok (t.transition .Data, r)
  | none =>
    let t := t.eofError r
    .ok (t.transition .Data, r)
  | some c =>
    if c = '"' ∨ c = '\'' ∨ c = '<' then do
      let t := t.errorState r
      let tg ← t.getTagPending
      .ok (t.setTagPending (tg.appendAttributeName [c]), r)
    else do
      let tg ← t.getTagPending
      .ok (t.setTagPending (tg.appendAttributeName [c]), r)

def readAfterAttributeName (t : Tokeniser) (r : CharacterReader) : StepResult := do
  let (c, r) := r.consume
  match c with
  | some '\t' | some '\n' | some '\r' | some '\x0c' | some ' ' =>
    .ok (t, r) -- ignore
  | some '/' => .ok (t.transition .SelfClosingStartTag, r)
  | some '=' => .ok (t.transition .BeforeAttributeValue, r)
  | some '>' => do
    let t ← t.emitTagPending r
    .ok (t.transition .Data, r)
  | some '\x00' => do
    let t := t.errorState r
    let tg ← t.getTagPending
    let t := t.setTagPending (tg.appendAttributeName [replacementChar])
    .ok (t.transition .AttributeName, r)
  | none =>
    let t := t.eofError r
    .ok (t.transition .Data, r)
  | some c =>
    if c = '"' ∨ c = '\'' ∨ c = '<' then do
      let t := t.errorState r
      let tg ← t.getTagPending
      let t := t.setTagPending (tg.newAttribute.appendAttributeName [c])
      .ok (t.transition .AttributeName, r)
    else do
      let tg ← t.getTagPending
      let t := t.setTagPending tg.newAttribute
      let r ← r.unconsume
      .ok (t.transition .AttributeName, r)

def readBeforeAttributeValue (t : Tokeniser) (r : CharacterReader) : StepResult := do
  let (c, r) := r.consume
  match c with
  | some '\t' | some '\n' | some '\r' | some '\x0c' | some ' ' =>
    .ok (t, r) -- ignore
  | some '"' => .ok (t.transition .AttributeValue_doubleQuoted, r)
  | some '&' => do
    let r ← r.unconsume
    .ok (t.transition .AttributeValue_unquoted, r)
  | some '\'' => .ok (t.transition .AttributeValue_singleQuoted, r)
  | some '\x00' => do
    let t := t.errorState r
    let tg ← t.getTagPending
    let t := t.setTagPending (tg.appendAttributeValue [replacementChar])
    .ok (t.transition .AttributeValue_unquoted, r)
  | none => do
    let t := t.eofError r
    let t ← t.emitTagPending r
    .ok (t.transition .Data, r)
  | some '>' => do
    let t := t.errorState r
    let t ← t.emitTagPending r
    .ok (t.transition .Data, r)
  | some c =>
    if c = '<' ∨ c = '=' ∨ c = '`' then do
      let t := t.errorState r
      let tg ← t.getTagPending
      let t := t.setTagPending (tg.appendAttributeValue [c])
      .ok (t.transition .AttributeValue_unquoted, r)
    else do
      let r ← r.unconsume
      .ok (t.transition .AttributeValue_unquoted, r)

def readAttributeValueQuoted (single : Bool) (t : Tokeniser) (r : CharacterReader) :
    StepResult := do
  let (value, r) := r.consumeAttributeQuoted single
  let tg ← t.getTagPending
  let t :=
    if value.length > 0 then t.setTagPending (tg.appendAttributeValue value)
    else t.setTagPending tg.setEmptyAttributeValue
  let (c, r) := r.consume
  let quote : Char := if single then '\'' else '"'
  match c with
  | some '&' =>
    -- t.consumeCharacterReference(quote, true): unimplemented stub
    .error "Method not implemented.".toList
  | some '\x00' => do
    let t := t.errorState r
    let tg ← t.getTagPending
    .ok (t.setTagPending (tg.appendAttributeValue [replacementChar]), r)
  | none =>
    let t := t.eofError r
    .ok (t.transition .Data, r)
  | some c =>
    if c = quote then .ok (t.transition .AfterAttributeValue_quoted, r)
    else do
      let tg ← t.getTagPending
      .ok (t.setTagPending (tg.appendAttributeValue [c]), r)

def readAttributeValueUnquoted (t : Tokeniser) (r : CharacterReader) : StepResult := do
  let (value, r) := r.consumeToAnySorted attributeValueUnquoted
  let tg ← t.getTagPending
  let t :=
    if value.length > 0 then t.setTagPending (tg.appendAttributeValue value) else t
  let (c, r) := r.consume
  match c with
  | some '\t' | some '\n' | some '\r' | some '\x0c' | some ' ' =>
    .ok (t.transition .BeforeAttributeName, r)
  | some '&' =>
    -- t.consumeCharacterReference('>', true): unimplemented stub
    .error "Method not implemented.".toList
  | some '>' => do
    let t ← t.emitTagPending r
    .ok (t.transition .Data, r)
  | some '\x00' => do
    let t := t.errorState r
    let tg ← t.getTagPending
    .ok (t.setTagPending (tg.appendAttributeValue [replacementChar]), r)
  | none =>
    let t := t.eofError r
    .ok (t.transition .Data, r)
  | some c =>
    if c = '"' ∨ c = '\'' ∨ c = '<' ∨ c = '=' ∨ c = '`' then do
      let t := t.errorState r
      let tg ← t.getTagPending
      .ok (t.setTagPending (tg.appendAttributeValue [c]), r)
    else do
      let tg ← t.getTagPending
      .ok (t.setTagPending (tg.appendAttributeValue [c]), r)

def readAfterAttributeValueQuoted (t : Tokeniser) (r : CharacterReader) : StepResult := do
  let (c, r) := r.consume
  match c with
  | some '\t' | some '\n' | some '\r' | some '\x0c' | some ' ' =>
    .ok (t.transition .BeforeAttributeName, r)
  | some '/' => .ok (t.transition .SelfClosingStartTag, r)
  | some '>' => do
    let t ← t.emitTagPending r
    .ok (t.transition .Data, r)
  | none =>
    let t := t.eofError r
    .ok (t.transition .Data, r)
  | some _ => do
    let r ← r.unconsume
    let t := t.errorState r
    .ok (t.transition .BeforeAttributeName, r)

def readMarkupDeclarationOpen (t : Tokeniser) (r : CharacterReader) : StepResult :=
  let (okDash, r) := r.matchConsume "--".toList
  if okDash then
    .ok ((t.createCommentPending).transition .CommentStart, r)
  else
    -- r.matchConsumeIgnoreCase('DOCTYPE'): CharacterReader has no such
    -- method, so this is a JS TypeError; the DOCTYPE/CDATA/bogus branches
    -- below it are unreachable.
    .error "r.matchConsumeIgnoreCase is not a function".toList

def readCommentStart (t : Tokeniser) (r : CharacterReader) : StepResult := do
  let (c, r) := r.consume
  match c with
  | some '-' => .ok (t.transition .CommentStartDash, r)
  | some '\x00' =>
    let t := t.errorState r
    .ok ((t.appendComment [replacementChar]).transition .Comment, r)
  | some '>' => do
    let t := t.errorState r
    let t ← t.emitCommentPending r
    .ok (t.transition .Data, r)
  | none => do
    let t := t.eofError r
    let t ← t.emitCommentPending r
    .ok (t.transition .Data, r)
  | some _ => do
    let r ← r.unconsume
    .ok (t.transition .Comment, r)

def readCommentStartDash (t : Tokeniser) (r : CharacterReader) : StepResult := do
  let (c, r) := r.consume
  match c with
  | some '-' => .ok (t.transition .CommentStartDash, r)
  | some '\x00' =>
    let t := t.errorState r
    .ok ((t.appendComment [replacementChar]).transition .Comment, r)
  | some '>' => do
    let t := t.errorState r
    let t ← t.emitCommentPending r
    .ok (t.transition .Data, r)
  | none => do
    let t := t.eofError r
    let t ← t.emitCommentPending r
    .ok (t.transition .Data, r)
  | some c =>
    .ok ((t.appendComment [c]).transition .Comment, r)

def readComment (t : Tokeniser) (r : CharacterReader) : StepResult :=
  match r.current with
  | some '-' => .ok (t.transition .CommentEndDash, r.advance)
  | some '\x00' =>
    let t := t.errorState r
    let r := r.advance
    .ok (t.appendComment [replacementChar], r)
  | none => do
    let t := t.eofError r
    let t ← t.emitCommentPending r
    .ok (t.transition .Data, r)
  | some _ =>
    let (s, r) := r.consumeToAny ['-', '\x00']
    .ok (t.appendComment s, r)

def readCommentEndDash (t : Tokeniser) (r : CharacterReader) : StepResult := do
  let (c, r) := r.consume
  match c with
  | some '-' => .ok (t.transition .CommentEnd, r)
  | some '\x00' =>
    let t := t.errorState r
    .ok (((t.appendComment ['-']).appendComment [replacementChar]).transition .Comment, r)
  | none => do
    let t := t.eofError r
    let t ← t.emitCommentPending r
    .ok (t.transition .Data, r)
  | some c =>
    .ok (((t.appendComment ['-']).appendComment [c]).transition .Comment, r)

def readCommentEnd (t : Tokeniser) (r : CharacterReader) : StepResult := do
  let (c, r) := r.consume
  match c with
  | some '>' => do
    let t ← t.emitCommentPending r
    .ok (t.transition .Data, r)
  | some '\x00' =>
    let t := t.errorState r
    .ok (((t.appendComment "--".toList).appendComment [replacementChar]).transition
      .Comment, r)
  | some '!' =>
    let t := t.errorState r
    .ok (t.transition .CommentEndBang, r)
  | some '-' =>
    let t := t.errorState r
    .ok (t.appendComment ['-'], r)
  | none => do
    let t := t.eofError r
    let t ← t.emitCommentPending r
    .ok (t.transition .Data, r)
  | some c =>
    let t := t.errorState r
    .ok (((t.appendComment "--".toList).appendComment [c]).transition .Comment, r)

def readCommentEndBang (t : Tokeniser) (r : CharacterReader) : StepResult := do
  let (c, r) := r.consume
  match c with
  | some '-' =>
    .ok ((t.appendComment "--!".toList).transition .CommentEndDash, r)
  | some '>' => do
    let t ← t.emitCommentPending r
    .ok (t.transition .Data, r)
  | some '\x00' =>
    let t := t.errorState r
    .ok (((t.appendComment "--!".toList).appendComment [replacementChar]).transition
      .Comment, r)
  | none => do
    let t := t.eofError r
    let t ← t.emitCommentPending r
    .ok (t.transition .Data, r)
  | some c =>
    .ok (((t.appendComment "--!".toList).appendComment [c]).transition .Comment, r)

def readBogusComment (t : Tokeniser) (r : CharacterReader) : StepResult := do
  -- rewind to capture the character that led here
  let r ← r.unconsume
  let (s, r) := r.consumeTo ">".toList
  let t := t.appendComment s
  let (next, r) := r.consume
  if next = some '>' ∨ next = none then do
    let t ← t.emitCommentPending r
    .ok (t.transition .Data, r)
  else .ok (t, r)

/-- One invocation of `this.state.read(this, this.reader)`. -/
def stepState (t : Tokeniser) (r : CharacterReader) : StepResult :=
  match t.state with
  | .Data => readData t r
  | .CharacterReferenceInData => readCharacterReferenceInData t r
  | .TagOpen => readTagOpen t r
  | .EndTagOpen => readEndTagOpen t r
  | .TagName => readTagName t r
  | .SelfClosingStartTag => readSelfClosingStartTag t r
  | .BeforeAttributeName => readBeforeAttributeName t r
  | .AttributeName => readAttributeName t r
  | .AfterAttributeName => readAfterAttributeName t r
  | .BeforeAttributeValue => readBeforeAttributeValue t r
  | .AttributeValue_doubleQuoted => readAttributeValueQuoted false t r
  | .AttributeValue_singleQuoted => readAttributeValueQuoted true t r
  | .AttributeValue_unquoted => readAttributeValueUnquoted t r
  | .AfterAttributeValue_quoted => readAfterAttributeValueQuoted t r
  | .MarkupDeclarationOpen => readMarkupDeclarationOpen t r
  | .CommentStart => readCommentStart t r
  | .CommentStartDash => readCommentStartDash t r
  | .Comment => readComment t r
  | .CommentEndDash => readCommentEndDash t r
  | .CommentEnd => readCommentEnd t r
  | .CommentEndBang => readCommentEndBang t r
  | .BogusComment => readBogusComment t r

/-- The epilogue of `read()` once `isEmitPending` holds: flush buffered
character data first, else hand out the pending token. -/
def finishRead (t : Tokeniser) (r : CharacterReader) :
    Except Str (Option (Token × Tokeniser × CharacterReader)) :=
  if t.charsBuilder.length ≠ 0 then
    let str := t.charsBuilder
    .ok (some (Token.character str, { t with charsBuilder := [], charsString := none }, r))
  else
    match t.charsString with
    | some s => .ok (some (Token.character s, { t with charsString := none }, r))
    | none =>
      match t.emitPending with
      | some tok => .ok (some (tok, { t with isEmitPending := false }, r))
      | none => .error "emitPending undefined".toList

/-- `Tokeniser.read()`: loop the state machine until a token is pending,
with explicit fuel.  `ok none` means the fuel ran out with no token
emitted (the `while` loop is still running). -/
def readFuel : Nat → Tokeniser → CharacterReader →
    Except Str (Option (Token × Tokeniser × CharacterReader))
  | 0, _, _ => .ok none
  | fuel + 1, t, r =>
    if t.isEmitPending then finishRead t r
    else
      match stepState t r with
      | .error e => .error e
      | .ok (t', r') => readFuel fuel t' r'

/-! ## Helper lemmas -/

/-- A hit of `findIndex` is an index into the scanned array. -/
theorem jsFindIdx_lt_length {p : Char → Bool} :
    ∀ {l : Str} {i : Nat}, jsFindIdx p l = some i → i < l.length := by
  intro l
  induction l with
  | nil => intro i h; simp [jsFindIdx] at h
  | cons c cs ih =>
    intro i h
    rw [List.length_cons]
    by_cases hp : p c
    · simp [jsFindIdx, hp] at h
      omega
    · simp [jsFindIdx, hp] at h
      obtain ⟨j, hj, rfl⟩ := h
      have := ih hj
      omega

/-- `returnConsume` moves the cursor forward by `Math.max(index, 0)`. -/
theorem returnConsume_snd_bufPos (r : CharacterReader) (idx : Option Nat) :
    (r.returnConsume idx).2.bufPos = r.bufPos + idx.getD 0 := by
  unfold CharacterReader.returnConsume
  cases idx with
  | none => rfl
  | some i =>
    rcases h : cacheString r.charBuf r.stringCache r.bufPos i with ⟨s, c⟩
    simp [h]

/-- `consumeToAny` never moves the cursor past the end of the buffer. -/
theorem consumeToAny_bufPos_le (r : CharacterReader) (cs : List Char)
    (h : r.bufPos ≤ r.charBuf.length) :
    (r.consumeToAny cs).2.bufPos ≤ r.charBuf.length := by
  unfold CharacterReader.consumeToAny
  rw [returnConsume_snd_bufPos]
  cases hidx : jsFindIdx (fun ch => cs.contains ch) (r.charBuf.drop r.bufPos) with
  | none => simpa using h
  | some i =>
    have hi := jsFindIdx_lt_length hidx
    rw [List.length_drop] at hi
    simp only [Option.getD]
    omega

/-- `matchConsume` never moves the cursor past the end of the buffer. -/
theorem matchConsume_bufPos_le (r : CharacterReader) (seq : Str)
    (h : r.bufPos ≤ r.charBuf.length) :
    (r.matchConsume seq).2.bufPos ≤ r.charBuf.length := by
  unfold CharacterReader.matchConsume
  by_cases hm : r.matchesIgnoreCase seq
  · simp only [hm, if_true]
    unfold CharacterReader.matchesIgnoreCase at hm
    by_cases hlen : (seq.length : Int) > (r.charBuf.length : Int) - (r.bufPos : Int)
    · simp [hlen] at hm
    · omega
  · simpa [hm] using h

/-! ## The claims

Each input of interest gets its initial configuration; the infinite-loop
claims use the one-step fixed point the Data/Comment states reach when
`returnConsume(-1)` declines to advance. -/

def inputC1 : Str := "<p class=\"a\">Hi &amp; bye</p>".toList
def inputC2 : Str := "a".toList
def inputC3 : Str := "<!-- abc".toList
def inputC8 : Str := "<a disabled>".toList

/-- Iterate `stepState`. -/
def stepN : Nat → Tokeniser × CharacterReader → Except Str (Tokeniser × CharacterReader)
  | 0, p => .ok p
  | n + 1, p =>
    match stepState p.1 p.2 with
    | .error e => .error e
    | .ok p' => stepN n p'

def orKeep : Except Str (Tokeniser × CharacterReader) → Tokeniser × CharacterReader →
    Tokeniser × CharacterReader
  | .ok p, _ => p
  | .error _, d => d

/-- The configuration the tokenizer is stuck in on input "a": one Data
step in, with `charsString = some ""`. -/
def c2Fix : Tokeniser × CharacterReader :=
  orKeep (stepN 1 (initTokeniser 16, initReader inputC2)) (initTokeniser 16, initReader inputC2)

theorem c2Fix_step : stepState c2Fix.1 c2Fix.2 = .ok c2Fix := by rfl

theorem c2Fix_never : ∀ n, readFuel n c2Fix.1 c2Fix.2 = .ok none := by
  intro n
  induction n with
  | zero => rfl
  | succ n ih =>
    have h : readFuel (n + 1) c2Fix.1 c2Fix.2 = readFuel n c2Fix.1 c2Fix.2 := rfl
    rw [h]
    exact ih

/-- The configuration the tokenizer is stuck in on input "<!-- abc":
five steps in, in the Comment state with `dataS = some ""`. -/
def c3Fix : Tokeniser × CharacterReader :=
  orKeep (stepN 5 (initTokeniser 16, initReader inputC3)) (initTokeniser 16, initReader inputC3)

theorem c3Fix_step : stepState c3Fix.1 c3Fix.2 = .ok c3Fix := by rfl

theorem c3Fix_never : ∀ n, readFuel n c3Fix.1 c3Fix.2 = .ok none := by
  intro n
  induction n with
  | zero => rfl
  | succ n ih =>
    have h : readFuel (n + 1) c3Fix.1 c3Fix.2 = readFuel n c3Fix.1 c3Fix.2 := rfl
    rw [h]
    exact ih

/-- Claim C1: tokenizing `<p class="a">Hi &amp; bye</p>` is claimed to
yield StartTag(p, \x7bclass:"a"\x7d), Character("Hi & bye"), EndTag(p),
EOF with no call throwing.  In the code, the very first `read()` throws
`Error('must be false')`: `consumeTagName` returns "" for the tag name
(`cacheString` evaluates `charBuf.slice(start, count)`, an end index, so
the slice for start 1 / count 1 is empty), and `emitToken` then trips the
`Assert.isFalse(Helper.isEmpty(tagName))` inside `get_tagName`.  (The
`&amp;` decoding could not succeed either: `consumeCharacterReference` is
a stub that throws "Method not implemented.".) -/
theorem claimC1_first_read_throws :
    readFuel 20 (initTokeniser 16) (initReader inputC1) =
      .error "must be false".toList := by
  rfl

/-- Claim C2: repeated `read()` calls are claimed to terminate with
exactly one EOF for every finite input.  On input "a" the Data state calls
`consumeData`, whose `returnConsume(-1)` returns "" without advancing the
cursor, so the `while (!isEmitPending)` loop never makes progress: for
every fuel bound, no token is ever produced. -/
theorem claimC2_read_loops_forever :
    ∀ fuel, readFuel fuel (initTokeniser 16) (initReader inputC2) = .ok none := by
  intro fuel
  match fuel with
  | 0 => rfl
  | n + 1 =>
    have h : readFuel (n + 1) (initTokeniser 16) (initReader inputC2)
        = readFuel n c2Fix.1 c2Fix.2 := rfl
    rw [h]
    exact c2Fix_never n

/-- Claim C3: tokenizing `<!-- abc` is claimed to emit Comment(" abc"),
record an EOF-in-comment parse error, and then emit EOF.  In the code the
Comment state calls `consumeToAny(['-', NUL])`, which on " abc" finds no
delimiter and (via `returnConsume(-1)`) returns "" without advancing, so
`read()` loops forever: for every fuel bound, no token is produced. -/
theorem claimC3_comment_read_loops_forever :
    ∀ fuel, readFuel fuel (initTokeniser 16) (initReader inputC3) = .ok none := by
  intro fuel
  match fuel with
  | 0 => rfl
  | 1 => rfl
  | 2 => rfl
  | 3 => rfl
  | 4 => rfl
  | n + 5 =>
    have h : readFuel (n + 5) (initTokeniser 16) (initReader inputC3)
        = readFuel n c3Fix.1 c3Fix.2 := rfl
    rw [h]
    exact c3Fix_never n

/-- Claim C4: `consumeToAny` is claimed to return the characters from the
cursor up to the first delimiter (advancing there), or everything to
end-of-input (leaving the cursor at the end, `isEmpty` true) when no
delimiter occurs.  The code: with no delimiter in "a" it returns "" and
leaves the cursor at 0 (`isEmpty` false); with delimiter 'c' in "abc" it
advances correctly to 2 but returns "a,b" (the cache-miss path of
`cacheString` joins `slice(start, count)` with the default comma
separator) instead of "ab". -/
theorem claimC4_consumeToAny_results :
    ((initReader "a".toList).consumeToAny ['x']).1 = [] ∧
    ((initReader "a".toList).consumeToAny ['x']).2.bufPos = 0 ∧
    ((initReader "a".toList).consumeToAny ['x']).2.isEmpty = false ∧
    ((initReader "abc".toList).consumeToAny ['c']).1 = "a,b".toList ∧
    ((initReader "abc".toList).consumeToAny ['c']).2.bufPos = 2 :=
  ⟨rfl, rfl, rfl, rfl, rfl⟩

/-- Claim C5, counterexample: the cursor is claimed to stay within
[0, length], with `consume()` at EOF leaving it at the end.  On the empty
input, one `consume()` moves the cursor to 1 > 0 = length (the
`bufPos++` is unconditional). -/
theorem claimC5_counterexample :
    ((initReader []).consume).2.pos > (initReader []).charBuf.length ∧
    ((initReader []).consume).1 = none :=
  ⟨by decide, rfl⟩

/-- Claim C5, amended: `consumeToAny` and `matchConsume` keep the cursor
within [0, length], and `consume()` at EOF returns the EOF sentinel but
increments the cursor to length + 1 (the reader still reports empty
afterwards, so reads never go out of bounds). -/
theorem claimC5_amended (r : CharacterReader) (cs : List Char) (seq : Str)
    (h : r.bufPos ≤ r.charBuf.length) :
    ((r.consumeToAny cs).2.bufPos ≤ r.charBuf.length ∧
     (r.matchConsume seq).2.bufPos ≤ r.charBuf.length) ∧
    (r.charBuf.length ≤ r.bufPos →
      (r.consume).1 = none ∧
      (r.consume).2.bufPos = r.charBuf.length + 1 ∧
      (r.consume).2.isEmpty = true) := by
  refine ⟨⟨consumeToAny_bufPos_le r cs h, matchConsume_bufPos_le r seq h⟩, ?_⟩
  intro h2
  have heq : r.bufPos = r.charBuf.length := le_antisymm h h2
  unfold CharacterReader.consume CharacterReader.isEmpty
  refine ⟨?_, ?_, ?_⟩
  · simp [CharacterReader.isEmpty, heq]
  · simp [heq]
  · simp [heq]

/-- Claim C5, witness for the amended statement at the empty reader. -/
theorem claimC5_amended_witness :
    (((initReader []).consumeToAny ['x']).2.bufPos ≤ (initReader []).charBuf.length ∧
     ((initReader []).matchConsume ['a']).2.bufPos ≤ (initReader []).charBuf.length) ∧
    ((initReader []).charBuf.length ≤ (initReader []).bufPos →
      ((initReader []).consume).1 = none ∧
      ((initReader []).consume).2.bufPos = (initReader []).charBuf.length + 1 ∧
      ((initReader []).consume).2.isEmpty = true) :=
  claimC5_amended (initReader []) ['x'] ['a'] (by decide)

/-- Claim C6: `cacheString(charBuf, cache, start, count)` is claimed to
return the concatenation of `charBuf[start .. start+count)` regardless of
cache contents.  On the empty cache (no collision even involved): for
buffer "ab", start 1, count 1 it returns "" instead of "b"
(`slice(start, count)` treats count as an end index), and for start 0,
count 2 it returns "a,b" instead of "ab" (`join()` separates with
commas). -/
theorem claimC6_cacheString_results :
    (cacheString "ab".toList [] 1 1).1 = [] ∧
    (cacheString "ab".toList [] 0 2).1 = "a,b".toList :=
  ⟨rfl, rfl⟩

/-- Claim C7: after `mark()` and some consuming, `rewindToMark()` is
claimed to succeed and restore the cursor.  The body of `mark()` is
commented out in the source, so `bufMark` is never set and
`rewindToMark()` always throws `Error('Mark invalid')`. -/
theorem claimC7_mark_then_rewind_throws :
    ((initReader "ab".toList).mark.consume).2.rewindToMark =
      .error "Mark invalid".toList :=
  rfl

/-- Claim C8: the attribute lists of `<a href=foo>` / `<a href='foo'>` /
`<a href="foo">` / `<a disabled>` are claimed to carry "foo" for href and
a null value (distinct from "") for disabled.  In the code, tokenizing
`<a disabled>` throws `Error('must be false')` before any StartTag is
returned (empty tag name from the `cacheString` slice bug), and at the
storage layer `Attributes.add` stringifies the null value of a boolean
attribute to the string "null" (template literal), so the null /
empty-string distinction is not representable at all. -/
theorem claimC8_boolean_attribute :
    readFuel 20 (initTokeniser 16) (initReader inputC8) =
      .error "must be false".toList ∧
    (Attributes.empty.add "disabled".toList none).list =
      [{ key := "disabled".toList, val := "null".toList }] :=
  ⟨by rfl, rfl⟩

/-- Claim C9: a tag carries at most 512 attributes; once the list reached
512 entries, `newAttribute` silently discards each further completed
attribute (leaving the list untouched and recording nothing — the
function touches no error state and throws nothing), and the bound is
preserved by every `newAttribute` call. -/
theorem length_add (a : Attributes) (n : Str) (v : Option Str) :
    (a.add n v).list.length = a.list.length + 1 := by
  simp [Attributes.add]

theorem attrLength_eq (tg : Tag) :
    tg.attrLength = (tg.attributes.map Attributes.length).getD 0 := by
  cases h : tg.attributes <;> simp [Tag.attrLength, h]

theorem claimC9_attribute_cap (tg : Tag) (h : tg.attrLength ≤ maxAttributes) :
    tg.newAttribute.attrLength ≤ maxAttributes ∧
    (tg.attrLength = maxAttributes → tg.newAttribute.attributes = tg.attributes) := by
  obtain ⟨isS, tn, nn, pan, pav, pavS, hev, hpv, sc, attrs⟩ := tg
  rw [attrLength_eq] at h
  rw [attrLength_eq]
  cases attrs with
  | none =>
    cases pan with
    | none =>
      refine ⟨?_, ?_⟩
      · simp [Tag.newAttribute, Attributes.empty, Attributes.length, maxAttributes]
      · intro hcap
        rw [attrLength_eq] at hcap
        simp [maxAttributes] at hcap
    | some pname =>
      have hcap0 : Attributes.empty.length < maxAttributes := by decide
      refine ⟨?_, ?_⟩
      · simp only [Tag.newAttribute, Option.isNone_none, if_true, Option.getD_some, hcap0,
          Option.map, Option.getD]
        by_cases ht : 0 < List.length (jsTrim pname)
        · simp only [ht, if_true]
          simp [length_add, Attributes.empty, Attributes.length, maxAttributes]
        · simp only [ht, if_false]
          simp [Attributes.empty, Attributes.length, maxAttributes]
      · intro hcap
        rw [attrLength_eq] at hcap
        simp [maxAttributes] at hcap
  | some a =>
    simp only [Option.map, Option.getD] at h
    cases pan with
    | none =>
      refine ⟨?_, ?_⟩
      · simpa [Tag.newAttribute, Option.map, Option.getD] using h
      · intro _
        simp [Tag.newAttribute]
    | some pname =>
      by_cases hlt : a.length < maxAttributes
      · refine ⟨?_, ?_⟩
        · simp only [Tag.newAttribute, Option.isNone_some, Bool.false_eq_true, if_false,
            Option.getD_some, hlt, if_true, Option.map, Option.getD]
          by_cases ht : 0 < List.length (jsTrim pname)
          · simp only [ht, if_true]
            simp only [Attributes.length, length_add] at *
            omega
          · simp only [ht, if_false]
            simpa using h
        · intro hcap
          rw [attrLength_eq] at hcap
          simp only [Option.map, Option.getD] at hcap
          simp only [Attributes.length] at hlt hcap
          omega
      · refine ⟨?_, ?_⟩
        · simp only [Tag.newAttribute, Option.isNone_some, Bool.false_eq_true, if_false,
            Option.getD_some, hlt, Option.map, Option.getD]
          simpa using h
        · intro _
          simp [Tag.newAttribute, hlt]

/-- Claim C9, witness: a tag already holding 512 attributes with a
pending attribute name; `newAttribute` leaves the attribute list
unchanged. -/
def tag512 : Tag :=
  { freshTag true with
    pendingAttributeName := some "x".toList,
    attributes := some ⟨List.replicate maxAttributes { key := "k".toList, val := [] }⟩ }

theorem claimC9_attribute_cap_witness :
    tag512.attrLength ≤ maxAttributes ∧
    (tag512.newAttribute.attrLength ≤ maxAttributes ∧
     (tag512.attrLength = maxAttributes → tag512.newAttribute.attributes = tag512.attributes)) :=
  ⟨by simp [tag512, Tag.attrLength, Attributes.length, freshTag],
   claimC9_attribute_cap tag512
     (by simp [tag512, Tag.attrLength, Attributes.length, freshTag])⟩

/-- Claim C10: whenever `emitToken` is handed an end tag whose attribute
list is non-empty, it records the parse error "Attributes incorrectly
present on end tag" (subject to the collector's cap) while the token is
still installed as the pending emit, unchanged. -/
theorem claimC10_end_tag_attribute_error (t : Tokeniser) (r : CharacterReader)
    (tg : Tag) (attrs : Attributes)
    (hpend : t.isEmitPending = false) (hstart : tg.isStart = false)
    (hattrs : tg.attributes = some attrs) (hne : attrs.list ≠ []) :
    t.emitToken r (Token.tag tg) =
      .ok { t with
            emitPending := some (Token.tag tg), isEmitPending := true,
            errors :=
              if t.errors.canAddError then
                t.errors.push
                  { pos := r.pos,
                    errorMsg := "Attributes incorrectly present on end tag".toList }
              else t.errors } := by
  unfold Tokeniser.emitToken Tokeniser.error
  simp [hpend, Token.typeOf, hstart, Tag.hasAttributes, hattrs]
  split_ifs <;> rfl

/-- Claim C10, witness at a concrete end tag with one attribute. -/
def endTagWithAttr : Tag :=
  { freshTag false with attributes := some ⟨[{ key := "k".toList, val := [] }]⟩ }

theorem claimC10_end_tag_attribute_error_witness :
    (initTokeniser 16).emitToken (initReader []) (Token.tag endTagWithAttr) =
      .ok { initTokeniser 16 with
            emitPending := some (Token.tag endTagWithAttr), isEmitPending := true,
            errors :=
              if (initTokeniser 16).errors.canAddError then
                (initTokeniser 16).errors.push
                  { pos := (initReader []).pos,
                    errorMsg := "Attributes incorrectly present on end tag".toList }
              else (initTokeniser 16).errors } :=
  claimC10_end_tag_attribute_error (initTokeniser 16) (initReader [])
    endTagWithAttr ⟨[{ key := "k".toList, val := [] }]⟩ rfl rfl rfl (by simp)

end Abc
